import Mathlib

/-!
Shallow embedding of the `cal` calendar renderer (repository `qianxyz/cal`).

The repository contains two engines:
* the modular one (`src/wrapper.rs`, `src/range.rs`, `src/format.rs`),
  embedded below in namespace `Cal`;
* the legacy single-file one (`src/lib.rs`), embedded in namespace `Legacy`.

Machine integers are modelled as `Nat`/`Int`; `u32` operations that can
wrap are written with an explicit `% 2^32` (Rust release-mode wrapping),
and a separately instrumented pipeline (`Cal.Checked`) returns `none`
wherever a debug build would panic (overflow, underflow, out-of-bounds
indexing, `chunks(0)`).
-/

/-- Modulus of `u32` arithmetic. -/
def U32MOD : Nat := 4294967296

/-- Wrapping `u32` addition. -/
def u32add (a b : Nat) : Nat := (a + b) % U32MOD

/-- Wrapping `u32` subtraction (operands assumed reduced below `2^32`). -/
def u32sub (a b : Nat) : Nat := (a + U32MOD - b) % U32MOD

namespace Cal

/-- `src/error.rs`: `enum CalError`. -/
inductive CalError where
  | invalidMonth (val : Nat)
  | invalidWeekday (val : Nat)
deriving DecidableEq

/-- `src/wrapper.rs`: `struct Year(u32)`. -/
structure Year where
  val : Nat
deriving DecidableEq

/-- `src/wrapper.rs`: `Year::pred`, `self.0 - 1` on `u32`. -/
def Year.pred (y : Year) : Year := ⟨u32sub y.val 1⟩

/-- `src/wrapper.rs`: `Year::succ`, `self.0 + 1` on `u32`. -/
def Year.succ (y : Year) : Year := ⟨u32add y.val 1⟩

/-- `src/wrapper.rs`: `Year::is_leap_year`. -/
def Year.isLeapYear (y : Year) : Bool :=
  if y.val % 400 = 0 then true
  else if y.val % 100 = 0 then false
  else y.val % 4 = 0

/-- `src/wrapper.rs`: `enum Month` with discriminants 1..12. -/
inductive Month where
  | january
  | february
  | march
  | april
  | may
  | june
  | july
  | august
  | september
  | october
  | november
  | december
deriving DecidableEq

/-- Discriminant of `Month` (`m as u8`). -/
def Month.toNat : Month → Nat
  | .january => 1
  | .february => 2
  | .march => 3
  | .april => 4
  | .may => 5
  | .june => 6
  | .july => 7
  | .august => 8
  | .september => 9
  | .october => 10
  | .november => 11
  | .december => 12

/-- `src/wrapper.rs`: `impl TryFrom<u8> for Month`. -/
def Month.tryFrom (value : Nat) : Except CalError Month :=
  match value with
  | 1 => .ok .january
  | 2 => .ok .february
  | 3 => .ok .march
  | 4 => .ok .april
  | 5 => .ok .may
  | 6 => .ok .june
  | 7 => .ok .july
  | 8 => .ok .august
  | 9 => .ok .september
  | 10 => .ok .october
  | 11 => .ok .november
  | 12 => .ok .december
  | _ => .error (.invalidMonth value)

/-- `src/wrapper.rs`: `Month::pred`; the wildcard arm is
`(*self as u8 - 1).try_into().unwrap()`, whose `unwrap` never fails
(discriminant minus one is in 1..=11); the `getD` default is that
unreachable arm. -/
def Month.pred (m : Month) : Month :=
  match m with
  | .january => .december
  | _ => ((Month.tryFrom (m.toNat - 1)).toOption).getD .january

/-- `src/wrapper.rs`: `Month::succ`; wildcard arm
`(*self as u8 + 1).try_into().unwrap()`, likewise total. -/
def Month.succ (m : Month) : Month :=
  match m with
  | .december => .january
  | _ => ((Month.tryFrom (m.toNat + 1)).toOption).getD .january

/-- `impl Display for Month` prints the `Debug` variant name. -/
def Month.name : Month → String
  | .january => "January"
  | .february => "February"
  | .march => "March"
  | .april => "April"
  | .may => "May"
  | .june => "June"
  | .july => "July"
  | .august => "August"
  | .september => "September"
  | .october => "October"
  | .november => "November"
  | .december => "December"

/-- `src/wrapper.rs`: `enum Weekday` with discriminants 0..6. -/
inductive Weekday where
  | sunday
  | monday
  | tuesday
  | wednesday
  | thursday
  | friday
  | saturday
deriving DecidableEq

/-- Discriminant of `Weekday` (`w as u8`). -/
def Weekday.toNat : Weekday → Nat
  | .sunday => 0
  | .monday => 1
  | .tuesday => 2
  | .wednesday => 3
  | .thursday => 4
  | .friday => 5
  | .saturday => 6

/-- `src/wrapper.rs`: `impl TryFrom<u8> for Weekday`. -/
def Weekday.tryFrom (value : Nat) : Except CalError Weekday :=
  match value with
  | 0 => .ok .sunday
  | 1 => .ok .monday
  | 2 => .ok .tuesday
  | 3 => .ok .wednesday
  | 4 => .ok .thursday
  | 5 => .ok .friday
  | 6 => .ok .saturday
  | _ => .error (.invalidWeekday value)

/-- `try_into().unwrap()` on a weekday number; the default arm stands for
the unreachable `unwrap` panic (every use site passes a value `< 7`). -/
def Weekday.ofNatUnwrap (n : Nat) : Weekday :=
  ((Weekday.tryFrom n).toOption).getD .sunday

/-- Modelled from the spec: the `Display` impl for `Weekday` used by
`src/format.rs` (`week_line`) is not among the included sources; spec
section 4.2 fixes the labels as the two-letter abbreviations of the days
in Sunday..Saturday order. -/
def Weekday.label : Weekday → String
  | .sunday => "Su"
  | .monday => "Mo"
  | .tuesday => "Tu"
  | .wednesday => "We"
  | .thursday => "Th"
  | .friday => "Fr"
  | .saturday => "Sa"

/-- Modelled from the spec: the `Sub` impl for `Weekday` used by
`src/format.rs` (`day_matrix`, `self.weekday_of_first() - fday`) is not
among the included sources; spec section 4.2 fixes it as the cyclic
difference `(weekday_of_first - first_weekday) mod 7`, a number in 0..6. -/
def Weekday.sub (a b : Weekday) : Nat := (a.toNat + 7 - b.toNat) % 7

/-- `src/range.rs`: `struct MonthOfYear(Year, Month)`. -/
structure MonthOfYear where
  year : Year
  month : Month
deriving DecidableEq

/-- `src/range.rs`: `MonthOfYear::new`. -/
def MonthOfYear.new (year : Nat) (month : Nat) : Except CalError MonthOfYear :=
  (Month.tryFrom month).map (fun m => ⟨⟨year⟩, m⟩)

/-- `src/range.rs`: `MonthOfYear::num_of_days`. -/
def MonthOfYear.numOfDays (s : MonthOfYear) : Nat :=
  match s.month with
  | .january | .march | .may | .july | .august | .october | .december => 31
  | .april | .june | .september | .november => 30
  | .february => if s.year.isLeapYear then 29 else 28

/-- `src/range.rs`: `MonthOfYear::weekday_of_first`, with each `u32`
operation that can wrap written with its explicit `% 2^32`. -/
def MonthOfYear.weekdayOfFirst (s : MonthOfYear) : Weekday :=
  let a : Nat := (14 - s.month.toNat) / 12
  let y : Nat := u32sub s.year.val a
  let m : Nat := s.month.toNat + 12 * a - 2
  Weekday.ofNatUnwrap
    (u32add (u32add (u32sub (u32add (u32add 1 y) (y / 4)) (y / 100)) (y / 400))
        (31 * m / 12) % 7)

/-- `src/range.rs`: `MonthOfYear::pred`. -/
def MonthOfYear.pred (s : MonthOfYear) : MonthOfYear :=
  ⟨match s.month with
    | .january => s.year.pred
    | _ => s.year,
   s.month.pred⟩

/-- `src/range.rs`: `MonthOfYear::succ`. -/
def MonthOfYear.succ (s : MonthOfYear) : MonthOfYear :=
  ⟨match s.month with
    | .december => s.year.succ
    | _ => s.year,
   s.month.succ⟩

/-- `src/range.rs`: `start.iter().take(len)` materialised as a list
(`MOYIter` yields `cur` and moves to `cur.succ()`). -/
def MonthOfYear.listFrom (s : MonthOfYear) : Nat → List MonthOfYear
  | 0 => []
  | n + 1 => s :: (s.succ).listFrom n

/-- `src/range.rs`: the rewind loop `for _ in 0..len/2 { start = start.pred() }`
as an iterated predecessor. -/
def MonthOfYear.predIter (s : MonthOfYear) : Nat → MonthOfYear
  | 0 => s
  | n + 1 => (s.pred).predIter n

/-- `src/range.rs`: `struct CalRange`. -/
structure CalRange where
  origin : MonthOfYear
  len : Nat
  span : Bool

/-- `src/range.rs`: `CalRange::new`. -/
def CalRange.new (year month : Nat) (len : Nat) (span : Bool) :
    Except CalError CalRange :=
  (MonthOfYear.new year month).map (fun o => ⟨o, len, span⟩)

/-- `src/range.rs`: `CalRange::iter` materialised as a list. -/
def CalRange.iterList (r : CalRange) : List MonthOfYear :=
  let start := if r.span then r.origin.predIter (r.len / 2) else r.origin
  start.listFrom r.len

/-- `format!("{:^w$}", s)`: centre `s` in `w` columns; with odd slack the
extra space goes to the right. -/
def centerPad (w : Nat) (s : String) : String :=
  if w ≤ s.length then s
  else
    let pad := w - s.length
    String.mk (List.replicate (pad / 2) ' ') ++ s ++
      String.mk (List.replicate (pad - pad / 2) ' ')

/-- `format!("{:>2} ", d)` for a positive day number: right-justified in
two columns plus one trailing space. -/
def dayCell (d : Int) : String :=
  let s := Nat.repr d.toNat
  String.mk (List.replicate (2 - s.length) ' ') ++ s ++ " "

/-- Rust `slice::chunks(c)` on a list, fuelled by the list length; with
`c = 0` Rust panics (the instrumented pipeline checks that separately). -/
def chunksAux {α : Type} (c : Nat) : Nat → List α → List (List α)
  | _, [] => []
  | 0, _ :: _ => []
  | fuel + 1, l => l.take c :: chunksAux c fuel (l.drop c)

/-- Consecutive groups of `c` elements, the last possibly shorter. -/
def chunks {α : Type} (c : Nat) (l : List α) : List (List α) :=
  chunksAux c l.length l

/-- `src/format.rs`: `Weekday::week_line`. -/
def Weekday.weekLine (w : Weekday) : String :=
  String.join ((List.range 7).map (fun i =>
    (Weekday.ofNatUnwrap ((i + w.toNat) % 7)).label ++ " "))

/-- `src/format.rs`: `MonthOfYear::header`. -/
def MonthOfYear.header (s : MonthOfYear) : String :=
  centerPad 21 (s.month.name ++ " " ++ Nat.repr s.year.val)

/-- `src/format.rs`: `MonthOfYear::day_matrix`; the signed day arithmetic
is `i8` in the source and stays well inside `i8` range. -/
def MonthOfYear.dayMatrix (s : MonthOfYear) (fday : Weekday) : List String :=
  let start : Int := 1 - (Weekday.sub s.weekdayOfFirst fday : Nat)
  let monthLength : Int := s.numOfDays
  (List.range 6).map (fun (n : Nat) =>
    String.join ((List.range 7).map (fun (i : Nat) =>
      let d : Int := start + 7 * (n : Int) + (i : Int)
      if 1 ≤ d ∧ d ≤ monthLength then dayCell d else "   ")))

/-- `src/format.rs`: `MonthOfYear::calendar`. -/
def MonthOfYear.calendar (s : MonthOfYear) (fday : Weekday) : List String :=
  s.header :: fday.weekLine :: s.dayMatrix fday

/-- `src/format.rs`: `struct CalFormat`. -/
structure CalFormat where
  range : CalRange
  fday : Weekday
  column : Nat

/-- `src/format.rs`: `CalFormat::new`. -/
def CalFormat.new (range : CalRange) (fday : Weekday) (column : Nat) :
    CalFormat :=
  ⟨range, fday, column⟩

/-- `src/format.rs`: `CalFormat::format`; `cs[0]` and `c[i]` are the
panicking Rust indexings, modelled totally here (`headD`/`getD`) and
checked in the instrumented pipeline. -/
def CalFormat.format (f : CalFormat) : String :=
  let cals := (f.range.iterList).map (fun ym => ym.calendar f.fday)
  String.intercalate "\n"
    ((chunks f.column cals).map (fun cs =>
      String.intercalate "\n"
        ((List.range (cs.headD []).length).map (fun i =>
          String.intercalate " " (cs.map (fun c => c.getD i ""))))))

end Cal

namespace Legacy

/-- `src/lib.rs`: `struct YearMonth(Year, Month)` over raw integers. -/
structure YearMonth where
  year : Nat
  month : Nat
deriving DecidableEq

/-- `src/lib.rs`: `YearMonth::is_leap_year`. -/
def YearMonth.isLeapYear (s : YearMonth) : Bool :=
  if s.year % 400 = 0 then true
  else if s.year % 100 = 0 then false
  else s.year % 4 = 0

/-- `src/lib.rs`: `YearMonth::num_of_days`; the wildcard arm is
`unreachable!()` (months are 1..12 by the `new` assertion). -/
def YearMonth.numOfDays (s : YearMonth) : Nat :=
  match s.month with
  | 1 | 3 | 5 | 7 | 8 | 10 | 12 => 31
  | 4 | 6 | 9 | 11 => 30
  | 2 => if s.isLeapYear then 29 else 28
  | _ => 0

/-- `src/lib.rs`: `YearMonth::weekday_of_first` (`u32` arithmetic, wrap
explicit). -/
def YearMonth.weekdayOfFirst (s : YearMonth) : Nat :=
  let a : Nat := (14 - s.month) / 12
  let y : Nat := u32sub s.year a
  let m : Nat := s.month + 12 * a - 2
  u32add (u32add (u32sub (u32add (u32add 1 y) (y / 4)) (y / 100)) (y / 400))
      (31 * m / 12) % 7

/-- `src/lib.rs`: the month-name match in `month_header`; wildcard arm is
`unreachable!()`. -/
def monthName : Nat → String
  | 1 => "January"
  | 2 => "February"
  | 3 => "March"
  | 4 => "April"
  | 5 => "May"
  | 6 => "June"
  | 7 => "July"
  | 8 => "August"
  | 9 => "September"
  | 10 => "October"
  | 11 => "November"
  | 12 => "December"
  | _ => ""

/-- `src/lib.rs`: `YearMonth::month_header`. -/
def YearMonth.monthHeader (s : YearMonth) : String :=
  Cal.centerPad 21 (monthName s.month ++ " " ++ Nat.repr s.year)

/-- `src/lib.rs`: the `WEEK_HEADER` constant. -/
def weekHeaderTable : List String :=
  ["Su ", "Mo ", "Tu ", "We ", "Th ", "Fr ", "Sa "]

/-- `src/lib.rs`: `YearMonth::week_header`. -/
def YearMonth.weekHeader (_s : YearMonth) (fday : Nat) : String :=
  String.join ((List.range 7).map (fun i =>
    weekHeaderTable.getD ((i + fday) % 7) ""))

/-- `src/lib.rs`: `YearMonth::day_matrix`; `rem_euclid(7)` on `i8` is
`Int.emod` here (`fday` is below 7 by the `Calendar::new` assertion, so
the `u8` to `i8` cast is the identity). -/
def YearMonth.dayMatrix (s : YearMonth) (fday : Nat) : List String :=
  let start : Int := 1 - ((s.weekdayOfFirst : Int) - (fday : Int)).emod 7
  let monthLength : Int := s.numOfDays
  (List.range 6).map (fun (n : Nat) =>
    String.join ((List.range 7).map (fun (i : Nat) =>
      let d : Int := start + 7 * (n : Int) + (i : Int)
      if 1 ≤ d ∧ d ≤ monthLength then Cal.dayCell d else "   ")))

/-- `src/lib.rs`: `YearMonth::calendar`. -/
def YearMonth.calendar (s : YearMonth) (fday : Nat) : List String :=
  s.monthHeader :: s.weekHeader fday :: s.dayMatrix fday

/-- `src/lib.rs`: `YearMonth::prev_month`. -/
def YearMonth.prevMonth (s : YearMonth) : YearMonth :=
  if s.month = 1 then ⟨u32sub s.year 1, 12⟩ else ⟨s.year, s.month - 1⟩

/-- `src/lib.rs`: `YearMonth::next_month`. -/
def YearMonth.nextMonth (s : YearMonth) : YearMonth :=
  if s.month = 12 then ⟨u32add s.year 1, 1⟩ else ⟨s.year, s.month + 1⟩

/-- `src/lib.rs`: `start.iter().take(len)` materialised as a list. -/
def YearMonth.listFrom (s : YearMonth) : Nat → List YearMonth
  | 0 => []
  | n + 1 => s :: (s.nextMonth).listFrom n

/-- `src/lib.rs`: the span rewind loop as an iterated predecessor. -/
def YearMonth.prevIter (s : YearMonth) : Nat → YearMonth
  | 0 => s
  | n + 1 => (s.prevMonth).prevIter n

/-- `src/lib.rs`: `struct Calendar`. -/
structure Calendar where
  origin : YearMonth
  len : Nat
  span : Bool
  fday : Nat
  column : Nat

/-- `src/lib.rs`: `Calendar::months`. -/
def Calendar.months (c : Calendar) : List YearMonth :=
  let start := if c.span then c.origin.prevIter (c.len / 2) else c.origin
  start.listFrom c.len

/-- `src/lib.rs`: `Calendar::format` (same shape as `CalFormat::format`). -/
def Calendar.format (c : Calendar) : String :=
  let cals := (c.months).map (fun ym => ym.calendar c.fday)
  String.intercalate "\n"
    ((Cal.chunks c.column cals).map (fun cs =>
      String.intercalate "\n"
        ((List.range (cs.headD []).length).map (fun i =>
          String.intercalate " " (cs.map (fun l => l.getD i ""))))))

end Legacy

namespace Cal.Checked

/-!
The instrumented pipeline: the same functions as in `Cal`, but every
`u32`/`u8` arithmetic operation, every `i8` value, every list indexing
and every `unwrap` returns `none` exactly where a Rust debug build would
panic (`chunks(0)` panics in every build).
-/

/-- Overflow check for a `u32` result. -/
def c32 (n : Nat) : Option Nat := if n < U32MOD then some n else none

/-- Checked `u32` addition. -/
def cadd (a b : Nat) : Option Nat := c32 (a + b)

/-- Checked `u32` multiplication. -/
def cmul (a b : Nat) : Option Nat := c32 (a * b)

/-- Checked unsigned subtraction (underflow panics). -/
def csub (a b : Nat) : Option Nat := if b ≤ a then some (a - b) else none

/-- Range check for an `i8` value. -/
def ci8 (n : Int) : Option Int := if -128 ≤ n ∧ n ≤ 127 then some n else none

/-- Checked list indexing (`l[i]` panics out of bounds). -/
def cindex {α : Type} (l : List α) (i : Nat) : Option α := l.get? i

/-- Checked `MonthOfYear::pred`. -/
def predM (s : MonthOfYear) : Option MonthOfYear := do
  let y ← match s.month with
    | .january => csub s.year.val 1
    | _ => pure s.year.val
  let m ← match s.month with
    | .january => pure Month.december
    | _ => do
        let v ← csub s.month.toNat 1
        (Month.tryFrom v).toOption
  pure ⟨⟨y⟩, m⟩

/-- Checked `MonthOfYear::succ`. -/
def succM (s : MonthOfYear) : Option MonthOfYear := do
  let y ← match s.month with
    | .december => cadd s.year.val 1
    | _ => pure s.year.val
  let m ← match s.month with
    | .december => pure Month.january
    | _ => do
        let v ← cadd s.month.toNat 1
        (Month.tryFrom v).toOption
  pure ⟨⟨y⟩, m⟩

/-- Checked `MonthOfYear::weekday_of_first`, one check per `u32` op. -/
def weekdayOfFirstM (s : MonthOfYear) : Option Weekday := do
  let d14 ← csub 14 s.month.toNat
  let a := d14 / 12
  let y ← csub s.year.val a
  let prod12 ← cmul 12 a
  let msum ← cadd s.month.toNat prod12
  let m ← csub msum 2
  let t1 ← cadd 1 y
  let t2 ← cadd t1 (y / 4)
  let t3 ← csub t2 (y / 100)
  let t4 ← cadd t3 (y / 400)
  let prod31 ← cmul 31 m
  let t5 ← cadd t4 (prod31 / 12)
  (Weekday.tryFrom (t5 % 7)).toOption

/-- Checked `MonthOfYear::day_matrix` (`i8` arithmetic checked). -/
def dayMatrixM (s : MonthOfYear) (fday : Weekday) : Option (List String) := do
  let w ← weekdayOfFirstM s
  let start ← ci8 (1 - (Weekday.sub w fday : Nat))
  let monthLength ← ci8 (s.numOfDays : Int)
  (List.range 6).mapM (fun (n : Nat) => do
    let cells ← (List.range 7).mapM (fun (i : Nat) => do
      let d ← ci8 (start + 7 * (n : Int) + (i : Int))
      pure (if 1 ≤ d ∧ d ≤ monthLength then dayCell d else "   "))
    pure (String.join cells))

/-- Checked `MonthOfYear::calendar`. -/
def calendarM (s : MonthOfYear) (fday : Weekday) : Option (List String) := do
  let dm ← dayMatrixM s fday
  pure (s.header :: fday.weekLine :: dm)

/-- Checked month iterator: the Rust iterator computes `cur.succ()` on
every `next` call, so the successor of the last yielded month is also
evaluated (and checked). -/
def listFromM : MonthOfYear → Nat → Option (List MonthOfYear)
  | _, 0 => pure []
  | s, n + 1 => do
    let nxt ← succM s
    let rest ← listFromM nxt n
    pure (s :: rest)

/-- Checked span rewind loop. -/
def predIterM : MonthOfYear → Nat → Option MonthOfYear
  | s, 0 => pure s
  | s, n + 1 => do
    let p ← predM s
    predIterM p n

/-- Checked `CalRange::iter`. -/
def iterListM (r : CalRange) : Option (List MonthOfYear) := do
  let start ← if r.span then predIterM r.origin (r.len / 2) else pure r.origin
  listFromM start r.len

/-- `slice::chunks(0)` panics in every build. -/
def chunksM {α : Type} (c : Nat) (l : List α) : Option (List (List α)) :=
  if c = 0 then none else some (chunks c l)

/-- Checked `CalFormat::format`. -/
def formatM (f : CalFormat) : Option String := do
  let months ← iterListM f.range
  let cals ← months.mapM (fun ym => calendarM ym f.fday)
  let css ← chunksM f.column cals
  let gs ← css.mapM (fun cs => do
    let c0 ← cindex cs 0
    let lines ← (List.range c0.length).mapM (fun i => do
      let cells ← cs.mapM (fun c => cindex c i)
      pure (String.intercalate " " cells))
    pure (String.intercalate "\n" lines))
  pure (String.intercalate "\n" gs)

end Cal.Checked

/-- Month-position index of a `MonthOfYear`: months elapsed since January
of year 0 (proof-support measure). -/
def Cal.MonthOfYear.idx (s : Cal.MonthOfYear) : Nat :=
  12 * s.year.val + (s.month.toNat - 1)

/-- View a modular `MonthOfYear` as a legacy `YearMonth` (proof-support
conversion for the engine-equivalence claim). -/
def Cal.MonthOfYear.toLegacy (s : Cal.MonthOfYear) : Legacy.YearMonth :=
  ⟨s.year.val, s.month.toNat⟩

theorem Cal.Month.toNat_bounds (m : Cal.Month) : 1 ≤ m.toNat ∧ m.toNat ≤ 12 := by
  cases m <;> decide

theorem Cal.Weekday.toNat_lt (w : Cal.Weekday) : w.toNat < 7 := by
  cases w <;> decide

theorem Cal.Weekday.toNat_ofNatUnwrap (n : Nat) (h : n < 7) :
    (Cal.Weekday.ofNatUnwrap n).toNat = n := by
  interval_cases n <;> rfl

theorem Cal.Weekday.sub_lt (a b : Cal.Weekday) : Cal.Weekday.sub a b < 7 :=
  Nat.mod_lt _ (by omega)

theorem Cal.Weekday.sub_eq_emod (a b : Cal.Weekday) :
    (Cal.Weekday.sub a b : Int) = ((a.toNat : Int) - (b.toNat : Int)).emod 7 := by
  cases a <;> cases b <;> decide

theorem u32_succ_pred (y : Nat) (h2 : y < 4294967296) :
    u32sub (u32add y 1) 1 = y := by
  unfold u32add u32sub U32MOD
  omega

theorem u32_pred_succ (y : Nat) (h1 : 1 ≤ y) (h2 : y < 4294967296) :
    u32add (u32sub y 1) 1 = y := by
  unfold u32add u32sub U32MOD
  omega

/-- Claim C7: for every MonthOfYear with year at least 1,
`pred (succ m) = m` and `succ (pred m) = m`, including across year
boundaries: `succ (Dec 2022) = Jan 2023` and `pred (Jan 2022) = Dec 2021`. -/
theorem claim_C7_pred_succ_roundtrip (y : Nat) (mo : Cal.Month)
    (h1 : 1 ≤ y) (h2 : y < U32MOD) :
    (Cal.MonthOfYear.mk ⟨y⟩ mo).succ.pred = ⟨⟨y⟩, mo⟩ ∧
    (Cal.MonthOfYear.mk ⟨y⟩ mo).pred.succ = ⟨⟨y⟩, mo⟩ ∧
    (Cal.MonthOfYear.mk ⟨2022⟩ .december).succ = ⟨⟨2023⟩, .january⟩ ∧
    (Cal.MonthOfYear.mk ⟨2022⟩ .january).pred = ⟨⟨2021⟩, .december⟩ := by
  have h2a : y < 4294967296 := h2
  refine ⟨?_, ?_, by decide, by decide⟩
  · cases mo
    case december =>
      have hstep : (Cal.MonthOfYear.mk ⟨y⟩ .december).succ.pred
          = ⟨⟨u32sub (u32add y 1) 1⟩, .december⟩ := rfl
      rw [hstep, u32_succ_pred y h2a]
    all_goals rfl
  · cases mo
    case january =>
      have hstep : (Cal.MonthOfYear.mk ⟨y⟩ .january).pred.succ
          = ⟨⟨u32add (u32sub y 1) 1⟩, .january⟩ := rfl
      rw [hstep, u32_pred_succ y h1 h2a]
    all_goals rfl

theorem claim_C7_witness :
    (1 ≤ 2022 ∧ 2022 < U32MOD) ∧
    ((Cal.MonthOfYear.mk ⟨2022⟩ .june).succ.pred = ⟨⟨2022⟩, .june⟩ ∧
     (Cal.MonthOfYear.mk ⟨2022⟩ .june).pred.succ = ⟨⟨2022⟩, .june⟩ ∧
     (Cal.MonthOfYear.mk ⟨2022⟩ .december).succ = ⟨⟨2023⟩, .january⟩ ∧
     (Cal.MonthOfYear.mk ⟨2022⟩ .january).pred = ⟨⟨2021⟩, .december⟩) :=
  ⟨⟨by decide, by decide⟩,
   claim_C7_pred_succ_roundtrip 2022 .june (by decide) (by decide)⟩

theorem Cal.Month.toNat_succ (mo : Cal.Month) (h : mo ≠ .december) :
    mo.succ.toNat = mo.toNat + 1 := by
  cases mo <;> first | rfl | exact absurd rfl h

theorem Cal.Month.toNat_pred (mo : Cal.Month) (h : mo ≠ .january) :
    mo.pred.toNat = mo.toNat - 1 := by
  cases mo <;> first | rfl | exact absurd rfl h

theorem Cal.MonthOfYear.succ_ne_december (y : Nat) (mo : Cal.Month)
    (h : mo ≠ .december) :
    (Cal.MonthOfYear.mk ⟨y⟩ mo).succ = ⟨⟨y⟩, mo.succ⟩ := by
  cases mo
  case december => exact absurd rfl h
  all_goals rfl

theorem Cal.MonthOfYear.pred_ne_january (y : Nat) (mo : Cal.Month)
    (h : mo ≠ .january) :
    (Cal.MonthOfYear.mk ⟨y⟩ mo).pred = ⟨⟨y⟩, mo.pred⟩ := by
  cases mo
  case january => exact absurd rfl h
  all_goals rfl

theorem Cal.MonthOfYear.idx_mk (z : Nat) (m : Cal.Month) :
    (Cal.MonthOfYear.mk ⟨z⟩ m).idx = 12 * z + (m.toNat - 1) := rfl

theorem Cal.MonthOfYear.idx_succ (s : Cal.MonthOfYear)
    (h : s.idx + 1 < 12 * 4294967296) (h2 : s.year.val < 4294967296) :
    s.succ.idx = s.idx + 1 ∧ s.succ.year.val < 4294967296 := by
  obtain ⟨⟨y⟩, mo⟩ := s
  rw [Cal.MonthOfYear.idx_mk] at h
  rcases eq_or_ne mo .december with rfl | hne
  · have hT : Cal.Month.toNat .december = 12 := rfl
    rw [hT] at h
    have hy1 : y + 1 < 4294967296 := by omega
    have hadd : u32add y 1 = y + 1 := by
      unfold u32add U32MOD
      omega
    have hsucc : (Cal.MonthOfYear.mk ⟨y⟩ .december).succ
        = ⟨⟨u32add y 1⟩, .january⟩ := rfl
    rw [hsucc, hadd]
    refine ⟨?_, hy1⟩
    rw [Cal.MonthOfYear.idx_mk, Cal.MonthOfYear.idx_mk, hT]
    have hTJ : Cal.Month.toNat .january = 1 := rfl
    rw [hTJ]
    omega
  · rw [Cal.MonthOfYear.succ_ne_december y mo hne]
    have hb := mo.toNat_bounds
    rw [Cal.MonthOfYear.idx_mk, Cal.MonthOfYear.idx_mk,
      Cal.Month.toNat_succ mo hne]
    exact ⟨by omega, h2⟩

theorem Cal.MonthOfYear.idx_pred (s : Cal.MonthOfYear) (h1 : 1 ≤ s.idx)
    (h2 : s.year.val < 4294967296) :
    s.pred.idx = s.idx - 1 ∧ s.pred.year.val < 4294967296 := by
  obtain ⟨⟨y⟩, mo⟩ := s
  rw [Cal.MonthOfYear.idx_mk] at h1
  have h2a : y < 4294967296 := h2
  rcases eq_or_ne mo .january with rfl | hne
  · have hT : Cal.Month.toNat .january = 1 := rfl
    rw [hT] at h1
    have hy1 : 1 ≤ y := by omega
    have hsub : u32sub y 1 = y - 1 := by
      unfold u32sub U32MOD
      omega
    have hpred : (Cal.MonthOfYear.mk ⟨y⟩ .january).pred
        = ⟨⟨u32sub y 1⟩, .december⟩ := rfl
    rw [hpred, hsub]
    refine ⟨?_, (by omega : y - 1 < 4294967296)⟩
    rw [Cal.MonthOfYear.idx_mk, Cal.MonthOfYear.idx_mk, hT]
    have hTD : Cal.Month.toNat .december = 12 := rfl
    rw [hTD]
    omega
  · rw [Cal.MonthOfYear.pred_ne_january y mo hne]
    have hb := mo.toNat_bounds
    have hb1 : 2 ≤ mo.toNat := by
      cases mo <;> first | exact absurd rfl hne | decide
    rw [Cal.MonthOfYear.idx_mk, Cal.MonthOfYear.idx_mk,
      Cal.Month.toNat_pred mo hne]
    exact ⟨by omega, h2⟩

theorem Cal.MonthOfYear.predIter_idx : ∀ (k : Nat) (s : Cal.MonthOfYear),
    k ≤ s.idx → s.year.val < 4294967296 →
    (s.predIter k).idx = s.idx - k ∧ (s.predIter k).year.val < 4294967296
  | 0, s, _, hy => ⟨rfl, hy⟩
  | k + 1, s, hk, hy => by
    have hp := s.idx_pred (by omega) hy
    have ih := Cal.MonthOfYear.predIter_idx k s.pred (by omega) hp.2
    refine ⟨?_, ih.2⟩
    rw [show s.predIter (k + 1) = (s.pred).predIter k from rfl, ih.1, hp.1]
    omega

theorem Cal.MonthOfYear.listFrom_length : ∀ (n : Nat) (s : Cal.MonthOfYear),
    (s.listFrom n).length = n
  | 0, _ => rfl
  | n + 1, s => by
    rw [show s.listFrom (n + 1) = s :: (s.succ).listFrom n from rfl]
    simp [Cal.MonthOfYear.listFrom_length n]

theorem Cal.MonthOfYear.listFrom_getD_idx : ∀ (n : Nat) (s : Cal.MonthOfYear)
    (i : Nat) (d : Cal.MonthOfYear), i < n →
    s.idx + n ≤ 12 * 4294967296 → s.year.val < 4294967296 →
    ((s.listFrom n).getD i d).idx = s.idx + i
  | n + 1, s, 0, d, _, _, _ => by
    rw [show s.listFrom (n + 1) = s :: (s.succ).listFrom n from rfl]
    simp
  | n + 1, s, i + 1, d, hi, hup, hy => by
    have hn : 1 ≤ n := by omega
    have hs := s.idx_succ (by omega) hy
    have ih := Cal.MonthOfYear.listFrom_getD_idx n s.succ i d (by omega)
      (by omega) hs.2
    rw [show s.listFrom (n + 1) = s :: (s.succ).listFrom n from rfl]
    simp only [List.getD_cons_succ]
    rw [ih, hs.1]
    omega

/-- Claim C5: in span mode the planned sequence starts `count / 2` months
before the query month, obtained by repeated `pred`, and contains exactly
`count` consecutive months (stated by month-position index); November 2022
with count 4 yields September through December 2022. The explicit bounds
are the spec's own scope: the rewind never passes January of year 0 and
the window stays inside the representable `u32` year range. -/
theorem claim_C5_span_planning (y : Nat) (mo : Cal.Month) (len : Nat)
    (h1 : 1 ≤ len) (hy : y < 4294967296)
    (hrew : len / 2 ≤ 12 * y + (mo.toNat - 1))
    (hup : 12 * y + (mo.toNat - 1) + len ≤ 12 * 4294967296) :
    (Cal.CalRange.mk ⟨⟨y⟩, mo⟩ len true).iterList =
      ((Cal.MonthOfYear.mk ⟨y⟩ mo).predIter (len / 2)).listFrom len ∧
    (Cal.CalRange.mk ⟨⟨y⟩, mo⟩ len true).iterList.length = len ∧
    (∀ i, i < len → ∀ d,
      ((Cal.CalRange.mk ⟨⟨y⟩, mo⟩ len true).iterList.getD i d).idx =
        12 * y + (mo.toNat - 1) - len / 2 + i) ∧
    (Cal.CalRange.mk ⟨⟨2022⟩, .november⟩ 4 true).iterList =
      [⟨⟨2022⟩, .september⟩, ⟨⟨2022⟩, .october⟩,
       ⟨⟨2022⟩, .november⟩, ⟨⟨2022⟩, .december⟩] := by
  have hidx : (Cal.MonthOfYear.mk ⟨y⟩ mo).idx = 12 * y + (mo.toNat - 1) := rfl
  have hil : (Cal.CalRange.mk ⟨⟨y⟩, mo⟩ len true).iterList
      = ((Cal.MonthOfYear.mk ⟨y⟩ mo).predIter (len / 2)).listFrom len := rfl
  have hp := Cal.MonthOfYear.predIter_idx (len / 2) ⟨⟨y⟩, mo⟩
    (by rw [hidx]; exact hrew) hy
  refine ⟨hil, ?_, ?_, by decide⟩
  · rw [hil, Cal.MonthOfYear.listFrom_length]
  · intro i hi d
    rw [hil, Cal.MonthOfYear.listFrom_getD_idx len _ i d hi
      (by rw [hp.1, hidx]; omega) hp.2, hp.1, hidx]

theorem claim_C5_witness :
    (1 ≤ 4 ∧ 2022 < 4294967296 ∧
      4 / 2 ≤ 12 * 2022 + (Cal.Month.toNat .november - 1) ∧
      12 * 2022 + (Cal.Month.toNat .november - 1) + 4 ≤ 12 * 4294967296) ∧
    ((Cal.CalRange.mk ⟨⟨2022⟩, .november⟩ 4 true).iterList =
      ((Cal.MonthOfYear.mk ⟨2022⟩ .november).predIter (4 / 2)).listFrom 4 ∧
    (Cal.CalRange.mk ⟨⟨2022⟩, .november⟩ 4 true).iterList.length = 4 ∧
    (∀ i, i < 4 → ∀ d,
      ((Cal.CalRange.mk ⟨⟨2022⟩, .november⟩ 4 true).iterList.getD i d).idx =
        12 * 2022 + (Cal.Month.toNat .november - 1) - 4 / 2 + i) ∧
    (Cal.CalRange.mk ⟨⟨2022⟩, .november⟩ 4 true).iterList =
      [⟨⟨2022⟩, .september⟩, ⟨⟨2022⟩, .october⟩,
       ⟨⟨2022⟩, .november⟩, ⟨⟨2022⟩, .december⟩]) :=
  ⟨⟨by decide, by decide, by decide, by decide⟩,
   claim_C5_span_planning 2022 .november 4 (by decide) (by decide)
     (by decide) (by decide)⟩

theorem foldl_append_eq_join (t : List String) :
    ∀ x : String, t.foldl (fun r s => r ++ s) x = x ++ String.join t := by
  induction t with
  | nil => intro x; exact (String.append_empty x).symm
  | cons b bs ih =>
    intro x
    show bs.foldl _ (x ++ b) = _
    rw [ih (x ++ b)]
    have hj : String.join (b :: bs) = b ++ String.join bs := by
      show bs.foldl _ ("" ++ b) = _
      rw [ih ("" ++ b), String.empty_append]
    rw [hj, String.append_assoc]

theorem join_cons (a : String) (t : List String) :
    String.join (a :: t) = a ++ String.join t := by
  show t.foldl _ ("" ++ a) = _
  rw [foldl_append_eq_join, String.empty_append]

theorem join_length_const : ∀ (l : List String) (c : Nat),
    (∀ x ∈ l, x.length = c) → (String.join l).length = c * l.length
  | [], c, _ => by simp [String.join]
  | a :: t, c, h => by
    rw [join_cons, String.length_append,
      join_length_const t c (fun x hx => h x (List.mem_cons_of_mem a hx)),
      h a (List.mem_cons_self a t)]
    simp [Nat.mul_succ]
    omega

theorem centerPad_length (w : Nat) (s : String) :
    (Cal.centerPad w s).length = max w s.length := by
  unfold Cal.centerPad
  split
  · omega
  · rw [String.length_append, String.length_append]
    have e1 : (String.mk (List.replicate ((w - s.length) / 2) ' ')).length
        = (w - s.length) / 2 := by
      show (List.replicate ((w - s.length) / 2) ' ').length = _
      exact List.length_replicate _ _
    have e2 : (String.mk
          (List.replicate (w - s.length - (w - s.length) / 2) ' ')).length
        = w - s.length - (w - s.length) / 2 := by
      show (List.replicate (w - s.length - (w - s.length) / 2) ' ').length = _
      exact List.length_replicate _ _
    rw [e1, e2]
    omega

theorem Cal.Month.name_length_le (mo : Cal.Month) : mo.name.length ≤ 9 := by
  cases mo <;> decide

theorem repr_length_of_u32 (y : Nat) (h : y < 4294967296) :
    (Nat.repr y).length ≤ 10 :=
  Nat.repr_length y 10 (by norm_num) (by omega)

theorem Cal.MonthOfYear.header_length (s : Cal.MonthOfYear)
    (hy : s.year.val < 4294967296) : s.header.length = 21 := by
  unfold Cal.MonthOfYear.header
  rw [centerPad_length, String.length_append, String.length_append]
  have h1 := s.month.name_length_le
  have h2 := repr_length_of_u32 s.year.val hy
  have h3 : (" " : String).length = 1 := rfl
  omega

theorem Cal.Weekday.weekLine_length (w : Cal.Weekday) :
    (Cal.Weekday.weekLine w).length = 21 := by
  cases w <;> rfl

theorem Cal.MonthOfYear.numOfDays_bounds (s : Cal.MonthOfYear) :
    28 ≤ s.numOfDays ∧ s.numOfDays ≤ 31 := by
  obtain ⟨⟨y⟩, mo⟩ := s
  cases mo <;> simp [Cal.MonthOfYear.numOfDays] <;> split <;> omega

theorem dayCell_length (n : Nat) (h1 : 1 ≤ n) (h2 : n ≤ 31) :
    (Cal.dayCell (n : Int)).length = 3 := by
  interval_cases n <;> rfl

theorem Cal.MonthOfYear.dayMatrix_length (s : Cal.MonthOfYear)
    (f : Cal.Weekday) : (s.dayMatrix f).length = 6 := by
  simp only [Cal.MonthOfYear.dayMatrix, List.length_map, List.length_range]

theorem Cal.MonthOfYear.dayMatrix_row_length (s : Cal.MonthOfYear)
    (f : Cal.Weekday) : ∀ row ∈ s.dayMatrix f, row.length = 21 := by
  intro row hrow
  unfold Cal.MonthOfYear.dayMatrix at hrow
  simp only [List.mem_map, List.mem_range] at hrow
  obtain ⟨n, _, rfl⟩ := hrow
  rw [join_length_const _ 3, List.length_map, List.length_range]
  intro x hx
  simp only [List.mem_map, List.mem_range] at hx
  obtain ⟨i, _, rfl⟩ := hx
  split
  case isTrue hin =>
    have hml := s.numOfDays_bounds
    set d : Int := 1 - (Cal.Weekday.sub s.weekdayOfFirst f : Nat) + 7 * n + i
      with hd
    have hdn : d = ((d.toNat : Nat) : Int) := (Int.toNat_of_nonneg (by omega)).symm
    rw [hdn]
    exact dayCell_length d.toNat (by omega) (by omega)
  case isFalse => rfl

theorem Cal.MonthOfYear.calendar_length (s : Cal.MonthOfYear)
    (f : Cal.Weekday) : (s.calendar f).length = 8 := by
  show (s.header :: f.weekLine :: s.dayMatrix f).length = 8
  rw [List.length_cons, List.length_cons, s.dayMatrix_length f]

/-- Claim C3: for every valid MonthOfYear and every first weekday, the
rendered month block is exactly 8 lines (header, weekday row, 6 day rows)
and every line is exactly 21 characters wide, trailing blank rows
included. -/
theorem claim_C3_block_shape (s : Cal.MonthOfYear) (f : Cal.Weekday)
    (hy : s.year.val < U32MOD) :
    (s.calendar f).length = 8 ∧ ∀ line ∈ s.calendar f, line.length = 21 := by
  have hy2 : s.year.val < 4294967296 := hy
  constructor
  · exact s.calendar_length f
  · intro line hl
    rcases hl with _ | ⟨_, hl⟩
    · exact s.header_length hy2
    rcases hl with _ | ⟨_, hl⟩
    · exact f.weekLine_length
    · exact s.dayMatrix_row_length f line hl

theorem claim_C3_witness :
    ((2022 : Nat) < U32MOD) ∧
    (((Cal.MonthOfYear.mk ⟨2022⟩ .november).calendar .wednesday).length = 8 ∧
     ∀ line ∈ (Cal.MonthOfYear.mk ⟨2022⟩ .november).calendar .wednesday,
       line.length = 21) :=
  ⟨by decide, claim_C3_block_shape ⟨⟨2022⟩, .november⟩ .wednesday (by decide)⟩

/-- In the whole-year plan the code keeps the year in every per-month
header: January 2022's header line is centred `"January 2022"`, which
contains the digit 2 (so not only the month name). -/
theorem claim_C6_counterexample :
    (((Cal.CalRange.mk ⟨⟨2022⟩, .january⟩ 12 false).iterList.map
        Cal.MonthOfYear.header).getD 0 "") = "    January 2022     " ∧
    '2' ∈ (((Cal.CalRange.mk ⟨⟨2022⟩, .january⟩ 12 false).iterList.map
        Cal.MonthOfYear.header).getD 0 "").toList := by
  constructor
  · rfl
  · decide

/-- Claim C6 (amended): in whole-year layouts every per-month header
keeps the year: each of the 12 planned months carries the query year and
its header is the centred `"<MonthName> <Year>"`. The claim as stated,
with the year omitted from headers, is refuted separately. -/
theorem claim_C6_amended (y : Nat) (hy : y < U32MOD) :
    ∀ s ∈ (Cal.CalRange.mk ⟨⟨y⟩, .january⟩ 12 false).iterList,
      s.year.val = y ∧
      s.header = Cal.centerPad 21 (s.month.name ++ " " ++ Nat.repr y) := by
  have hstep : ∀ (s : Cal.MonthOfYear) (n : Nat),
      s.listFrom (n + 1) = s :: s.succ.listFrom n := fun _ _ => rfl
  have h0 : ∀ s : Cal.MonthOfYear, s.listFrom 0 = [] := fun _ => rfl
  have e1 : (Cal.MonthOfYear.mk ⟨y⟩ .january).succ = ⟨⟨y⟩, .february⟩ := rfl
  have e2 : (Cal.MonthOfYear.mk ⟨y⟩ .february).succ = ⟨⟨y⟩, .march⟩ := rfl
  have e3 : (Cal.MonthOfYear.mk ⟨y⟩ .march).succ = ⟨⟨y⟩, .april⟩ := rfl
  have e4 : (Cal.MonthOfYear.mk ⟨y⟩ .april).succ = ⟨⟨y⟩, .may⟩ := rfl
  have e5 : (Cal.MonthOfYear.mk ⟨y⟩ .may).succ = ⟨⟨y⟩, .june⟩ := rfl
  have e6 : (Cal.MonthOfYear.mk ⟨y⟩ .june).succ = ⟨⟨y⟩, .july⟩ := rfl
  have e7 : (Cal.MonthOfYear.mk ⟨y⟩ .july).succ = ⟨⟨y⟩, .august⟩ := rfl
  have e8 : (Cal.MonthOfYear.mk ⟨y⟩ .august).succ = ⟨⟨y⟩, .september⟩ := rfl
  have e9 : (Cal.MonthOfYear.mk ⟨y⟩ .september).succ = ⟨⟨y⟩, .october⟩ := rfl
  have e10 : (Cal.MonthOfYear.mk ⟨y⟩ .october).succ = ⟨⟨y⟩, .november⟩ := rfl
  have e11 : (Cal.MonthOfYear.mk ⟨y⟩ .november).succ = ⟨⟨y⟩, .december⟩ := rfl
  have hlist : (Cal.CalRange.mk ⟨⟨y⟩, .january⟩ 12 false).iterList =
      [⟨⟨y⟩, .january⟩, ⟨⟨y⟩, .february⟩, ⟨⟨y⟩, .march⟩, ⟨⟨y⟩, .april⟩,
       ⟨⟨y⟩, .may⟩, ⟨⟨y⟩, .june⟩, ⟨⟨y⟩, .july⟩, ⟨⟨y⟩, .august⟩,
       ⟨⟨y⟩, .september⟩, ⟨⟨y⟩, .october⟩, ⟨⟨y⟩, .november⟩,
       ⟨⟨y⟩, .december⟩] := by
    show (Cal.MonthOfYear.mk ⟨y⟩ .january).listFrom 12 = _
    rw [hstep _ 11, e1, hstep _ 10, e2, hstep _ 9, e3, hstep _ 8, e4,
      hstep _ 7, e5, hstep _ 6, e6, hstep _ 5, e7, hstep _ 4, e8,
      hstep _ 3, e9, hstep _ 2, e10, hstep _ 1, e11, hstep _ 0, h0]
  rw [hlist]
  intro s hs
  simp only [List.mem_cons, List.not_mem_nil, or_false] at hs
  rcases hs with rfl | rfl | rfl | rfl | rfl | rfl | rfl | rfl | rfl | rfl
    | rfl | rfl <;> exact ⟨rfl, rfl⟩

theorem claim_C6_amended_witness :
    ((2022 : Nat) < U32MOD) ∧
    ∀ s ∈ (Cal.CalRange.mk ⟨⟨2022⟩, .january⟩ 12 false).iterList,
      s.year.val = 2022 ∧
      s.header = Cal.centerPad 21 (s.month.name ++ " " ++ Nat.repr 2022) :=
  ⟨by decide, claim_C6_amended 2022 (by decide)⟩

/-- Claim C2: day row `r` of the rendered month block shows, for each day
number `d` in `start + 7r .. start + 7r + 6` with
`start = 1 - ((weekday_of_first - first_weekday) mod 7)`, the number right
justified in 2 columns plus a trailing space when `1 ≤ d ≤ month_length`
and 3 blank columns otherwise; November 2022 with first weekday Monday has
weekday row `"Mo Tu We Th Fr Sa Su "` and first day row
`"    1  2  3  4  5  6 "`. -/
theorem claim_C2_day_rows (s : Cal.MonthOfYear) (f : Cal.Weekday) (r : Nat)
    (hr : r < 6) :
    (s.dayMatrix f).getD r "" =
      String.join ((List.range 7).map (fun (i : Nat) =>
        let d : Int := 1 - ((s.weekdayOfFirst.toNat : Int)
            - (f.toNat : Int)).emod 7 + 7 * (r : Int) + (i : Int)
        if 1 ≤ d ∧ d ≤ (s.numOfDays : Int) then
          String.mk (List.replicate (2 - (Nat.repr d.toNat).length) ' ')
            ++ Nat.repr d.toNat ++ " "
        else "   ")) ∧
    ((Cal.MonthOfYear.mk ⟨2022⟩ .november).calendar .monday).getD 1 ""
      = "Mo Tu We Th Fr Sa Su " ∧
    ((Cal.MonthOfYear.mk ⟨2022⟩ .november).calendar .monday).getD 2 ""
      = "    1  2  3  4  5  6 " := by
  refine ⟨?_, by decide, by decide⟩
  unfold Cal.MonthOfYear.dayMatrix
  have hlen : r < ((List.range 6).map (fun (n : Nat) =>
      String.join ((List.range 7).map (fun (i : Nat) =>
        let d : Int := 1 - (Cal.Weekday.sub s.weekdayOfFirst f : Nat)
            + 7 * (n : Int) + (i : Int)
        if 1 ≤ d ∧ d ≤ (s.numOfDays : Int) then Cal.dayCell d
        else "   ")))).length := by
    rw [List.length_map, List.length_range]
    exact hr
  rw [List.getD_eq_getElem _ _ hlen, List.getElem_map, List.getElem_range]
  simp only [Cal.Weekday.sub_eq_emod]
  rfl

theorem claim_C2_witness :
    ((0 : Nat) < 6) ∧
    (((Cal.MonthOfYear.mk ⟨2022⟩ .november).dayMatrix .monday).getD 0 "" =
      String.join ((List.range 7).map (fun (i : Nat) =>
        let w : Nat :=
          (Cal.MonthOfYear.weekdayOfFirst ⟨⟨2022⟩, .november⟩).toNat
        let d : Int := 1 - ((w : Int)
            - (Cal.Weekday.toNat .monday : Int)).emod 7
            + 7 * ((0 : Nat) : Int) + (i : Int)
        if 1 ≤ d ∧ d ≤ ((Cal.MonthOfYear.mk ⟨2022⟩ .november).numOfDays : Int)
        then String.mk (List.replicate (2 - (Nat.repr d.toNat).length) ' ')
          ++ Nat.repr d.toNat ++ " "
        else "   ")) ∧
    ((Cal.MonthOfYear.mk ⟨2022⟩ .november).calendar .monday).getD 1 ""
      = "Mo Tu We Th Fr Sa Su " ∧
    ((Cal.MonthOfYear.mk ⟨2022⟩ .november).calendar .monday).getD 2 ""
      = "    1  2  3  4  5  6 ") :=
  ⟨by decide, claim_C2_day_rows ⟨⟨2022⟩, .november⟩ .monday 0 (by decide)⟩

theorem intercalate_go_append (sep : String) : ∀ (as : List String)
    (x y : String),
    String.intercalate.go (x ++ y) sep as = x ++ String.intercalate.go y sep as
  | [], x, y => rfl
  | b :: bs, x, y => by
    show String.intercalate.go (x ++ y ++ sep ++ b) sep bs
        = x ++ String.intercalate.go (y ++ sep ++ b) sep bs
    rw [String.append_assoc x y sep, String.append_assoc x (y ++ sep) b]
    exact intercalate_go_append sep bs x (y ++ sep ++ b)

theorem intercalate_cons_cons (sep a b : String) (t : List String) :
    String.intercalate sep (a :: b :: t)
      = a ++ sep ++ String.intercalate sep (b :: t) := by
  show String.intercalate.go a sep (b :: t) = _
  show String.intercalate.go (a ++ sep ++ b) sep t = _
  rw [intercalate_go_append sep t (a ++ sep) b]
  rfl

theorem intercalate_append_ne_nil (sep : String) : ∀ (l1 l2 : List String),
    l1 ≠ [] → l2 ≠ [] →
    String.intercalate sep (l1 ++ l2)
      = String.intercalate sep l1 ++ sep ++ String.intercalate sep l2
  | [], _, h1, _ => absurd rfl h1
  | [a], b :: t, _, _ => by
    show String.intercalate sep (a :: b :: t) = _
    rw [intercalate_cons_cons]
    rfl
  | a :: c :: cs, b :: t, _, h2 => by
    show String.intercalate sep (a :: ((c :: cs) ++ (b :: t))) = _
    rw [show (c :: cs) ++ (b :: t) = c :: (cs ++ b :: t) from rfl,
      intercalate_cons_cons,
      show c :: (cs ++ b :: t) = (c :: cs) ++ (b :: t) from rfl,
      intercalate_append_ne_nil sep (c :: cs) (b :: t) (by simp) h2,
      intercalate_cons_cons sep a c cs]
    simp only [String.append_assoc]

theorem flatten_ne_nil_of_head (g : List String) (t : List (List String))
    (h : g ≠ []) : (g :: t).flatten ≠ [] := by
  cases g with
  | nil => exact absurd rfl h
  | cons a as => simp

theorem intercalate_flatten (sep : String) : ∀ (gs : List (List String)),
    (∀ g ∈ gs, g ≠ []) →
    String.intercalate sep (gs.map (String.intercalate sep))
      = String.intercalate sep gs.flatten
  | [], _ => rfl
  | [g], h => by
    show String.intercalate sep [String.intercalate sep g]
        = String.intercalate sep (g ++ [].flatten)
    have hg : String.intercalate sep [String.intercalate sep g]
        = String.intercalate sep g := rfl
    rw [hg, List.flatten_nil, List.append_nil]
  | g :: g2 :: t, h => by
    show String.intercalate sep
        (String.intercalate sep g :: (g2 :: t).map (String.intercalate sep))
        = String.intercalate sep (g ++ (g2 :: t).flatten)
    rw [show (g2 :: t).map (String.intercalate sep)
        = String.intercalate sep g2 :: t.map (String.intercalate sep)
      from rfl, intercalate_cons_cons,
      show String.intercalate sep g2 :: t.map (String.intercalate sep)
        = (g2 :: t).map (String.intercalate sep) from rfl,
      intercalate_flatten sep (g2 :: t)
        (fun x hx => h x (List.mem_cons_of_mem g hx)),
      intercalate_append_ne_nil sep g (g2 :: t).flatten
        (h g (List.mem_cons_self g (g2 :: t)))
        (flatten_ne_nil_of_head g2 t
          (h g2 (List.mem_cons_of_mem g (List.mem_cons_self g2 t))))]

theorem chunksAux_mem {α : Type} (c : Nat) (hc : 1 ≤ c) :
    ∀ (fuel : Nat) (l : List α) (g : List α),
    g ∈ Cal.chunksAux c fuel l → g ≠ [] ∧ ∀ x ∈ g, x ∈ l
  | 0, [], g => by intro h; exact absurd h (List.not_mem_nil g)
  | 0, _ :: _, g => by intro h; exact absurd h (List.not_mem_nil g)
  | fuel + 1, [], g => by intro h; exact absurd h (List.not_mem_nil g)
  | fuel + 1, a :: t, g => by
    intro h
    rw [show Cal.chunksAux c (fuel + 1) (a :: t)
        = (a :: t).take c :: Cal.chunksAux c fuel ((a :: t).drop c)
      from rfl] at h
    rcases List.mem_cons.mp h with rfl | hmem
    · constructor
      · obtain ⟨c1, rfl⟩ : ∃ c1, c = c1 + 1 := ⟨c - 1, by omega⟩
        simp [List.take_cons]
      · exact fun x hx => List.take_subset c (a :: t) hx
    · have ih := chunksAux_mem c hc fuel ((a :: t).drop c) g hmem
      exact ⟨ih.1, fun x hx => List.drop_subset c (a :: t) (ih.2 x hx)⟩

theorem chunks_mem {α : Type} (c : Nat) (hc : 1 ≤ c) (l : List α)
    (g : List α) (h : g ∈ Cal.chunks c l) : g ≠ [] ∧ ∀ x ∈ g, x ∈ l :=
  chunksAux_mem c hc l.length l g h

set_option maxRecDepth 10000 in
/-- Claim C4 (amended): the composer partitions the month blocks into
consecutive groups of `column_count` (last group possibly shorter), joins
each of the 8 line positions across a group with a single space, and joins
all lines and groups with newlines; composing Oct-Dec 2022 into 3 columns
gives the 8 lines listed, whose header line has four leading spaces (the
claim's quoted header, with three leading spaces, is refuted separately).
-/
theorem claim_C4_composer (r : Cal.CalRange) (f : Cal.Weekday) (c : Nat)
    (hc : 1 ≤ c) :
    Cal.CalFormat.format ⟨r, f, c⟩ =
      String.intercalate "\n"
        ((Cal.chunks c (r.iterList.map (fun ym => ym.calendar f))).flatMap
          (fun cs => (List.range 8).map (fun i =>
            String.intercalate " " (cs.map (fun b => b.getD i ""))))) ∧
    Cal.CalFormat.format ⟨⟨⟨⟨2022⟩, .october⟩, 3, false⟩, .sunday, 3⟩ =
      String.intercalate "\n"
        ["    October 2022          November 2022         December 2022    ",
         "Su Mo Tu We Th Fr Sa  Su Mo Tu We Th Fr Sa  Su Mo Tu We Th Fr Sa ",
         "                   1         1  2  3  4  5               1  2  3 ",
         " 2  3  4  5  6  7  8   6  7  8  9 10 11 12   4  5  6  7  8  9 10 ",
         " 9 10 11 12 13 14 15  13 14 15 16 17 18 19  11 12 13 14 15 16 17 ",
         "16 17 18 19 20 21 22  20 21 22 23 24 25 26  18 19 20 21 22 23 24 ",
         "23 24 25 26 27 28 29  27 28 29 30           25 26 27 28 29 30 31 ",
         "30 31                                                            "]
    := by
  constructor
  · show String.intercalate "\n"
        ((Cal.chunks c (r.iterList.map (fun ym => ym.calendar f))).map
          (fun cs =>
            String.intercalate "\n"
              ((List.range (cs.headD []).length).map (fun i =>
                String.intercalate " " (cs.map (fun b => b.getD i ""))))))
        = _
    have hcal8 : ∀ b ∈ r.iterList.map (fun ym => ym.calendar f),
        b.length = 8 := by
      intro b hb
      obtain ⟨ym, _, rfl⟩ := List.mem_map.mp hb
      exact ym.calendar_length f
    have hhead : ∀ cs ∈ Cal.chunks c (r.iterList.map (fun ym =>
        ym.calendar f)), (cs.headD []).length = 8 := by
      intro cs hcs
      obtain ⟨hne, hsub⟩ := chunks_mem c hc _ cs hcs
      cases cs with
      | nil => exact absurd rfl hne
      | cons b bs => exact hcal8 b (hsub b (List.mem_cons_self b bs))
    rw [List.map_congr_left (fun cs hcs => by rw [hhead cs hcs])]
    have h1 : ((Cal.chunks c (r.iterList.map (fun ym => ym.calendar f))).map
          (fun cs => String.intercalate "\n"
            ((List.range 8).map (fun i =>
              String.intercalate " " (cs.map (fun b => b.getD i ""))))))
        = ((Cal.chunks c (r.iterList.map (fun ym => ym.calendar f))).map
            (fun cs => (List.range 8).map (fun i =>
              String.intercalate " " (cs.map (fun b => b.getD i ""))))).map
          (String.intercalate "\n") := by
      rw [List.map_map]
      rfl
    have hne : ∀ g ∈ (Cal.chunks c (r.iterList.map (fun ym =>
        ym.calendar f))).map (fun cs => (List.range 8).map (fun i =>
          String.intercalate " " (cs.map (fun b => b.getD i "")))),
        g ≠ [] := by
      intro g hg
      obtain ⟨cs, _, rfl⟩ := List.mem_map.mp hg
      simp
    rw [h1, intercalate_flatten "\n" _ hne, ← List.flatMap_def]
  · decide

/-- The code's header line for Oct-Dec 2022 in 3 columns starts with four
spaces (centred 21-column headers joined by single spaces); the claim's
quoted header line has only three leading spaces, so the example in the
claim is off by one space. -/
theorem claim_C4_counterexample :
    String.intercalate " "
      (((Cal.CalRange.mk ⟨⟨2022⟩, .october⟩ 3 false).iterList.map
        (fun ym => ym.calendar Cal.Weekday.sunday)).map
          (fun b => b.getD 0 ""))
      = "    October 2022          November 2022         December 2022    " ∧
    ("    October 2022          November 2022         December 2022    "
      : String)
      ≠ "   October 2022          November 2022         December 2022    " := by
  exact ⟨by decide, by decide⟩

theorem claim_C4_witness :
    (1 ≤ 3) ∧
    (Cal.CalFormat.format ⟨⟨⟨⟨2022⟩, .october⟩, 3, false⟩, .sunday, 3⟩ =
      String.intercalate "\n"
        ((Cal.chunks 3 ((Cal.CalRange.mk ⟨⟨2022⟩, .october⟩ 3 false).iterList.map
            (fun ym => ym.calendar Cal.Weekday.sunday))).flatMap
          (fun cs => (List.range 8).map (fun i =>
            String.intercalate " " (cs.map (fun b => b.getD i ""))))) ∧
    Cal.CalFormat.format ⟨⟨⟨⟨2022⟩, .october⟩, 3, false⟩, .sunday, 3⟩ =
      String.intercalate "\n"
        ["    October 2022          November 2022         December 2022    ",
         "Su Mo Tu We Th Fr Sa  Su Mo Tu We Th Fr Sa  Su Mo Tu We Th Fr Sa ",
         "                   1         1  2  3  4  5               1  2  3 ",
         " 2  3  4  5  6  7  8   6  7  8  9 10 11 12   4  5  6  7  8  9 10 ",
         " 9 10 11 12 13 14 15  13 14 15 16 17 18 19  11 12 13 14 15 16 17 ",
         "16 17 18 19 20 21 22  20 21 22 23 24 25 26  18 19 20 21 22 23 24 ",
         "23 24 25 26 27 28 29  27 28 29 30           25 26 27 28 29 30 31 ",
         "30 31                                                            "]) :=
  ⟨by decide,
   claim_C4_composer ⟨⟨⟨2022⟩, .october⟩, 3, false⟩ .sunday 3 (by decide)⟩

theorem Cal.Checked.cadd_eq (a b : Nat) (h : a + b < 4294967296) :
    Cal.Checked.cadd a b = some (a + b) := by
  unfold Cal.Checked.cadd Cal.Checked.c32 U32MOD
  rw [if_pos h]

theorem Cal.Checked.cmul_eq (a b : Nat) (h : a * b < 4294967296) :
    Cal.Checked.cmul a b = some (a * b) := by
  unfold Cal.Checked.cmul Cal.Checked.c32 U32MOD
  rw [if_pos h]

theorem Cal.Checked.csub_eq (a b : Nat) (h : b ≤ a) :
    Cal.Checked.csub a b = some (a - b) := by
  unfold Cal.Checked.csub
  rw [if_pos h]

theorem Cal.Checked.ci8_eq (n : Int) (h1 : -128 ≤ n) (h2 : n ≤ 127) :
    Cal.Checked.ci8 n = some n := by
  unfold Cal.Checked.ci8
  rw [if_pos ⟨h1, h2⟩]

theorem Cal.Weekday.tryFrom_toOption_lt (n : Nat) (h : n < 7) :
    (Cal.Weekday.tryFrom n).toOption = some (Cal.Weekday.ofNatUnwrap n) := by
  interval_cases n <;> rfl

theorem mapM_some_pred {α β : Type} (fm : α → Option β) (P : β → Prop) :
    ∀ l : List α, (∀ x ∈ l, ∃ b, fm x = some b ∧ P b) →
    ∃ out : List β, l.mapM fm = some out ∧ out.length = l.length ∧
      ∀ b ∈ out, P b
  | [], _ => ⟨[], rfl, rfl, by simp⟩
  | a :: t, h => by
    obtain ⟨b, hb, hPb⟩ := h a (List.mem_cons_self a t)
    obtain ⟨out, hout, hlen, hP⟩ := mapM_some_pred fm P t
      (fun x hx => h x (List.mem_cons_of_mem a hx))
    refine ⟨b :: out, ?_, by simp [hlen], ?_⟩
    · rw [List.mapM_cons, hb, hout]
      rfl
    · intro x hx
      rcases List.mem_cons.mp hx with rfl | hx
      · exact hPb
      · exact hP x hx

theorem Cal.MonthOfYear.year_lt_of_idx (s : Cal.MonthOfYear)
    (h : s.idx ≤ 12 * 4294967296 - 2) : s.year.val < 4294967296 := by
  obtain ⟨⟨y⟩, mo⟩ := s
  rw [Cal.MonthOfYear.idx_mk] at h
  have hb := mo.toNat_bounds
  show y < 4294967296
  omega

theorem Cal.Checked.succM_eq (s : Cal.MonthOfYear)
    (h : s.idx + 1 < 12 * 4294967296) :
    Cal.Checked.succM s = some s.succ := by
  obtain ⟨⟨y⟩, mo⟩ := s
  rw [Cal.MonthOfYear.idx_mk] at h
  cases mo
  case december =>
    simp only [Cal.Month.toNat] at h
    have hy1 : y + 1 < 4294967296 := by omega
    have e : Cal.Checked.succM ⟨⟨y⟩, .december⟩
        = (Cal.Checked.cadd y 1).bind
            (fun yv => some ⟨⟨yv⟩, .january⟩) := rfl
    have e2 : (Cal.MonthOfYear.mk ⟨y⟩ .december).succ
        = ⟨⟨u32add y 1⟩, .january⟩ := rfl
    have hu : u32add y 1 = y + 1 := by
      unfold u32add U32MOD
      omega
    rw [e, e2, hu, Cal.Checked.cadd_eq y 1 hy1, Option.some_bind]
  all_goals rfl

theorem Cal.Checked.predM_eq (s : Cal.MonthOfYear) (h1 : 1 ≤ s.idx)
    (h2 : s.year.val < 4294967296) :
    Cal.Checked.predM s = some s.pred := by
  obtain ⟨⟨y⟩, mo⟩ := s
  rw [Cal.MonthOfYear.idx_mk] at h1
  have h2a : y < 4294967296 := h2
  cases mo
  case january =>
    simp only [Cal.Month.toNat] at h1
    have hy1 : 1 ≤ y := by omega
    have e : Cal.Checked.predM ⟨⟨y⟩, .january⟩
        = (Cal.Checked.csub y 1).bind
            (fun yv => some ⟨⟨yv⟩, .december⟩) := rfl
    have e2 : (Cal.MonthOfYear.mk ⟨y⟩ .january).pred
        = ⟨⟨u32sub y 1⟩, .december⟩ := rfl
    have hu : u32sub y 1 = y - 1 := by
      unfold u32sub U32MOD
      omega
    rw [e, e2, hu, Cal.Checked.csub_eq y 1 hy1, Option.some_bind]
  all_goals rfl

theorem Cal.Checked.listFromM_eq : ∀ (n : Nat) (s : Cal.MonthOfYear),
    s.idx + n ≤ 12 * 4294967296 - 1 →
    Cal.Checked.listFromM s n = some (s.listFrom n)
  | 0, _, _ => rfl
  | n + 1, s, h => by
    have hy : s.year.val < 4294967296 := s.year_lt_of_idx (by omega)
    have hs := s.idx_succ (by omega) hy
    have e : Cal.Checked.listFromM s (n + 1)
        = (Cal.Checked.succM s).bind (fun nxt =>
            (Cal.Checked.listFromM nxt n).bind (fun rest => some (s :: rest)))
      := rfl
    rw [e, Cal.Checked.succM_eq s (by omega), Option.some_bind,
      Cal.Checked.listFromM_eq n s.succ (by rw [hs.1]; omega),
      Option.some_bind]
    rfl

theorem Cal.Checked.predIterM_eq : ∀ (k : Nat) (s : Cal.MonthOfYear),
    k ≤ s.idx → s.year.val < 4294967296 →
    Cal.Checked.predIterM s k = some (s.predIter k)
  | 0, _, _, _ => rfl
  | k + 1, s, hk, hy => by
    have hp := s.idx_pred (by omega) hy
    have e : Cal.Checked.predIterM s (k + 1)
        = (Cal.Checked.predM s).bind (fun p => Cal.Checked.predIterM p k)
      := rfl
    rw [e, Cal.Checked.predM_eq s (by omega) hy, Option.some_bind]
    exact Cal.Checked.predIterM_eq k s.pred (by omega) hp.2

theorem Cal.MonthOfYear.listFrom_mem_idx :
    ∀ (n : Nat) (s x : Cal.MonthOfYear),
    x ∈ s.listFrom n → s.idx + n ≤ 12 * 4294967296 - 1 →
    s.idx ≤ x.idx ∧ x.idx < s.idx + n
  | 0, _, x, hx, _ => absurd hx (List.not_mem_nil x)
  | n + 1, s, x, hx, h => by
    rw [show s.listFrom (n + 1) = s :: s.succ.listFrom n from rfl] at hx
    rcases List.mem_cons.mp hx with rfl | hx
    · omega
    · have hy : s.year.val < 4294967296 := s.year_lt_of_idx (by omega)
      have hs := s.idx_succ (by omega) hy
      have ih := Cal.MonthOfYear.listFrom_mem_idx n s.succ x hx
        (by rw [hs.1]; omega)
      rw [hs.1] at ih
      omega

theorem optionBind_some {α β : Type} (a : α) (f : α → Option β) :
    ((some a >>= f) : Option β) = f a := rfl

theorem bind_some_exists {α β : Type} (o : Option α) (g : α → β) (a : α)
    (h : o = some a) :
    ∃ b, ((o >>= fun x => pure (g x)) : Option β) = some b ∧ True :=
  ⟨g a, by rw [h]; rfl, trivial⟩

theorem Cal.Checked.weekdayOfFirstM_isSome (s : Cal.MonthOfYear)
    (h2 : 2 ≤ s.idx) (hup : s.idx ≤ 12 * 3435973835 + 11) :
    ∃ w, Cal.Checked.weekdayOfFirstM s = some w := by
  obtain ⟨⟨y⟩, mo⟩ := s
  rw [Cal.MonthOfYear.idx_mk] at h2 hup
  have hb := mo.toNat_bounds
  have hy : y ≤ 3435973835 := by omega
  have ha : (14 - mo.toNat) / 12 ≤ y := by omega
  unfold Cal.Checked.weekdayOfFirstM
  simp (disch := omega) only [Cal.Checked.csub_eq, Cal.Checked.cadd_eq,
    Cal.Checked.cmul_eq, optionBind_some]
  rw [Cal.Weekday.tryFrom_toOption_lt _ (Nat.mod_lt _ (by omega))]
  exact ⟨_, rfl⟩

theorem Cal.Checked.dayMatrixM_eq (s : Cal.MonthOfYear) (f : Cal.Weekday)
    (h2 : 2 ≤ s.idx) (hup : s.idx ≤ 12 * 3435973835 + 11) :
    ∃ rows, Cal.Checked.dayMatrixM s f = some rows ∧ rows.length = 6 := by
  obtain ⟨w, hw⟩ := Cal.Checked.weekdayOfFirstM_isSome s h2 hup
  have hsub := Cal.Weekday.sub_lt w f
  have hml := s.numOfDays_bounds
  unfold Cal.Checked.dayMatrixM
  rw [hw]
  simp only [optionBind_some]
  rw [Cal.Checked.ci8_eq (1 - (Cal.Weekday.sub w f : Nat))
    (by omega) (by omega)]
  simp only [optionBind_some]
  rw [Cal.Checked.ci8_eq (s.numOfDays : Nat) (by omega) (by omega)]
  simp only [optionBind_some]
  have hout := mapM_some_pred
    (fun (n : Nat) => do
      let cells ← (List.range 7).mapM (fun (i : Nat) => do
        let d ← Cal.Checked.ci8 (1 - (Cal.Weekday.sub w f : Nat)
            + 7 * (n : Int) + (i : Int))
        pure (if 1 ≤ d ∧ d ≤ ((s.numOfDays : Nat) : Int)
          then Cal.dayCell d else "   "))
      pure (String.join cells))
    (fun _ => True)
    (List.range 6)
    (by
      intro n hn
      rw [List.mem_range] at hn
      have hin := mapM_some_pred
        (fun (i : Nat) => do
          let d ← Cal.Checked.ci8 (1 - (Cal.Weekday.sub w f : Nat)
              + 7 * (n : Int) + (i : Int))
          pure (if 1 ≤ d ∧ d ≤ ((s.numOfDays : Nat) : Int)
            then Cal.dayCell d else "   "))
        (fun _ => True)
        (List.range 7)
        (by
          intro i hi
          rw [List.mem_range] at hi
          exact bind_some_exists _ _ _
            (Cal.Checked.ci8_eq (1 - (Cal.Weekday.sub w f : Nat)
              + 7 * (n : Int) + (i : Int)) (by omega) (by omega)))
      obtain ⟨cells, hcells, _, _⟩ := hin
      exact bind_some_exists _ _ _ hcells)
  obtain ⟨rows, hrows, hlen, _⟩ := hout
  rw [hrows]
  exact ⟨rows, rfl, by rw [hlen, List.length_range]⟩

theorem Cal.Checked.calendarM_eq (s : Cal.MonthOfYear) (f : Cal.Weekday)
    (h2 : 2 ≤ s.idx) (hup : s.idx ≤ 12 * 3435973835 + 11) :
    ∃ cal, Cal.Checked.calendarM s f = some cal ∧ cal.length = 8 := by
  obtain ⟨rows, hrows, hlen⟩ := Cal.Checked.dayMatrixM_eq s f h2 hup
  unfold Cal.Checked.calendarM
  rw [hrows]
  exact ⟨s.header :: f.weekLine :: rows, rfl, by simp [hlen]⟩

theorem cindex_isSome {α : Type} (l : List α) (i : Nat) (h : i < l.length) :
    ∃ a, Cal.Checked.cindex l i = some a :=
  ⟨l.get ⟨i, h⟩, List.get?_eq_get h⟩

theorem Cal.Checked.formatM_tail_isSome (months : List Cal.MonthOfYear)
    (f : Cal.Weekday) (c : Nat) (hc : 1 ≤ c)
    (hbounds : ∀ x ∈ months, 2 ≤ x.idx ∧ x.idx ≤ 12 * 3435973835 + 11) :
    ∃ out, ((months.mapM (fun ym => Cal.Checked.calendarM ym f) >>=
        fun cals =>
        Cal.Checked.chunksM c cals >>= fun css =>
        css.mapM (fun cs =>
          Cal.Checked.cindex cs 0 >>= fun c0 =>
          (List.range c0.length).mapM (fun i =>
            cs.mapM (fun cl => Cal.Checked.cindex cl i) >>= fun cells =>
            pure (String.intercalate " " cells)) >>= fun lines =>
          pure (String.intercalate "\n" lines)) >>= fun gs =>
        pure (String.intercalate "\n" gs)) : Option String) = some out := by
  obtain ⟨cals, hcals, hclen, hc8⟩ := mapM_some_pred
    (fun ym => Cal.Checked.calendarM ym f) (fun cal => cal.length = 8)
    months (fun x hx =>
      Cal.Checked.calendarM_eq x f (hbounds x hx).1 (hbounds x hx).2)
  rw [hcals, optionBind_some]
  have hchunks : Cal.Checked.chunksM c cals = some (Cal.chunks c cals) := by
    unfold Cal.Checked.chunksM
    rw [if_neg (by omega)]
  rw [hchunks, optionBind_some]
  obtain ⟨gs, hgs, _, _⟩ := mapM_some_pred
    (fun cs =>
      Cal.Checked.cindex cs 0 >>= fun c0 =>
      (List.range c0.length).mapM (fun i =>
        cs.mapM (fun cl => Cal.Checked.cindex cl i) >>= fun cells =>
        pure (String.intercalate " " cells)) >>= fun lines =>
      pure (String.intercalate "\n" lines))
    (fun _ => True) (Cal.chunks c cals)
    (by
      intro cs hcs
      obtain ⟨hne, hsubm⟩ := chunks_mem c hc cals cs hcs
      cases cs with
      | nil => exact absurd rfl hne
      | cons b bs =>
        dsimp only
        have hb8 : b.length = 8 := hc8 b (hsubm b (List.mem_cons_self b bs))
        have hidx0 : Cal.Checked.cindex (b :: bs) 0 = some b := rfl
        rw [hidx0, optionBind_some]
        obtain ⟨lines, hlines, _, _⟩ := mapM_some_pred
          (fun i =>
            (b :: bs).mapM (fun cl => Cal.Checked.cindex cl i) >>=
              fun cells => pure (String.intercalate " " cells))
          (fun _ => True) (List.range b.length)
          (by
            intro i hi
            rw [List.mem_range, hb8] at hi
            obtain ⟨cells, hcells, _, _⟩ := mapM_some_pred
              (fun cl => Cal.Checked.cindex cl i) (fun _ => True) (b :: bs)
              (by
                intro cl hcl
                have h8 : cl.length = 8 := hc8 cl (hsubm cl hcl)
                obtain ⟨aa, haa⟩ := cindex_isSome cl i (by omega)
                exact ⟨aa, haa, trivial⟩)
            exact bind_some_exists _ _ _ hcells)
        exact bind_some_exists _ _ _ hlines)
  rw [hgs, optionBind_some]
  exact ⟨_, rfl⟩

/-- Claim C9 (amended): the fully instrumented pipeline succeeds on every
validated input whose planned months all lie between March of year 0 and
December of year 3435973835, so no `u32`/`i8` operation can over- or
underflow and no indexing or unwrap can fail; outside those bounds it
can fail, as shown separately. -/
theorem claim_C9_render_total (y : Nat) (mo : Cal.Month) (f : Cal.Weekday)
    (len : Nat) (span : Bool) (c : Nat)
    (h1 : 1 ≤ y) (h2 : y < 4294967296) (hlen : 1 ≤ len) (hc : 1 ≤ c)
    (hrew : (if span then len / 2 else 0) + 2 ≤ 12 * y + (mo.toNat - 1))
    (hup : 12 * y + (mo.toNat - 1) - (if span then len / 2 else 0) + len
        ≤ 12 * 3435973835 + 12) :
    (Cal.Checked.formatM ⟨⟨⟨⟨y⟩, mo⟩, len, span⟩, f, c⟩).isSome = true := by
  have hio : (Cal.MonthOfYear.mk ⟨y⟩ mo).idx = 12 * y + (mo.toNat - 1) :=
    Cal.MonthOfYear.idx_mk y mo
  have hoy : (Cal.MonthOfYear.mk ⟨y⟩ mo).year.val < 4294967296 := h2
  have e : Cal.Checked.formatM ⟨⟨⟨⟨y⟩, mo⟩, len, span⟩, f, c⟩
      = (Cal.Checked.iterListM ⟨⟨⟨y⟩, mo⟩, len, span⟩ >>= fun months =>
          months.mapM (fun ym => Cal.Checked.calendarM ym f) >>= fun cals =>
          Cal.Checked.chunksM c cals >>= fun css =>
          css.mapM (fun cs =>
            Cal.Checked.cindex cs 0 >>= fun c0 =>
            (List.range c0.length).mapM (fun i =>
              cs.mapM (fun cl => Cal.Checked.cindex cl i) >>= fun cells =>
              pure (String.intercalate " " cells)) >>= fun lines =>
            pure (String.intercalate "\n" lines)) >>= fun gs =>
          pure (String.intercalate "\n" gs)) := rfl
  cases span with
  | false =>
    have hrew2 : 2 ≤ 12 * y + (mo.toNat - 1) := by simpa using hrew
    have hup2 : 12 * y + (mo.toNat - 1) + len ≤ 12 * 3435973835 + 12 := by
      simpa using hup
    have hiter : Cal.Checked.iterListM ⟨⟨⟨y⟩, mo⟩, len, false⟩
        = Cal.Checked.listFromM ⟨⟨y⟩, mo⟩ len := rfl
    have hmonths : Cal.Checked.listFromM (Cal.MonthOfYear.mk ⟨y⟩ mo) len
        = some ((Cal.MonthOfYear.mk ⟨y⟩ mo).listFrom len) :=
      Cal.Checked.listFromM_eq len _ (by rw [hio]; omega)
    obtain ⟨out, hout⟩ := Cal.Checked.formatM_tail_isSome
      ((Cal.MonthOfYear.mk ⟨y⟩ mo).listFrom len) f c hc
      (by
        intro x hx
        have hm := Cal.MonthOfYear.listFrom_mem_idx len _ x hx
          (by rw [hio]; omega)
        rw [hio] at hm
        omega)
    rw [e, hiter, hmonths]
    simp only [optionBind_some]
    rw [hout]
    rfl
  | true =>
    have hrew2 : len / 2 + 2 ≤ 12 * y + (mo.toNat - 1) := by simpa using hrew
    have hup2 : 12 * y + (mo.toNat - 1) - len / 2 + len
        ≤ 12 * 3435973835 + 12 := by simpa using hup
    have hpi := Cal.MonthOfYear.predIter_idx (len / 2) ⟨⟨y⟩, mo⟩
      (by rw [hio]; omega) hoy
    have hiter : Cal.Checked.iterListM ⟨⟨⟨y⟩, mo⟩, len, true⟩
        = (Cal.Checked.predIterM ⟨⟨y⟩, mo⟩ (len / 2) >>= fun start =>
            Cal.Checked.listFromM start len) := rfl
    have hpred : Cal.Checked.predIterM (Cal.MonthOfYear.mk ⟨y⟩ mo) (len / 2)
        = some ((Cal.MonthOfYear.mk ⟨y⟩ mo).predIter (len / 2)) :=
      Cal.Checked.predIterM_eq (len / 2) _ (by rw [hio]; omega) hoy
    have hmonths : Cal.Checked.listFromM
          ((Cal.MonthOfYear.mk ⟨y⟩ mo).predIter (len / 2)) len
        = some (((Cal.MonthOfYear.mk ⟨y⟩ mo).predIter (len / 2)).listFrom
            len) :=
      Cal.Checked.listFromM_eq len _ (by rw [hpi.1, hio]; omega)
    obtain ⟨out, hout⟩ := Cal.Checked.formatM_tail_isSome
      (((Cal.MonthOfYear.mk ⟨y⟩ mo).predIter (len / 2)).listFrom len) f c hc
      (by
        intro x hx
        have hm := Cal.MonthOfYear.listFrom_mem_idx len _ x hx
          (by rw [hpi.1, hio]; omega)
        rw [hpi.1, hio] at hm
        omega)
    rw [e, hiter, hpred]
    simp only [optionBind_some]
    rw [hmonths]
    simp only [optionBind_some]
    rw [hout]
    rfl

theorem claim_C9_witness :
    ((1 ≤ 2022 ∧ 2022 < 4294967296 ∧ 1 ≤ 4 ∧ 1 ≤ 3) ∧
      (if true then 4 / 2 else 0) + 2
        ≤ 12 * 2022 + (Cal.Month.toNat .november - 1) ∧
      12 * 2022 + (Cal.Month.toNat .november - 1)
          - (if true then 4 / 2 else 0) + 4
        ≤ 12 * 3435973835 + 12) ∧
    (Cal.Checked.formatM
      ⟨⟨⟨⟨2022⟩, .november⟩, 4, true⟩, .sunday, 3⟩).isSome = true :=
  ⟨⟨⟨by decide, by decide, by decide, by decide⟩, by decide, by decide⟩,
   claim_C9_render_total 2022 .november .sunday 4 true 3
     (by decide) (by decide) (by decide) (by decide) (by decide) (by decide)⟩

/-- At year 4294967295 (a valid `u32` year ≥ 1), month 3, count 1, column
1, the instrumented pipeline fails: `1 + y` in the weekday formula
overflows `u32`, so rendering is not panic-free for every validated input
as the claim states. -/
theorem claim_C9_counterexample :
    Cal.Checked.formatM ⟨⟨⟨⟨4294967295⟩, .march⟩, 1, false⟩, .sunday, 1⟩
      = none := by
  decide

theorem Legacy.YearMonth.weekdayOfFirst_lt (t : Legacy.YearMonth) :
    t.weekdayOfFirst < 7 := by
  unfold Legacy.YearMonth.weekdayOfFirst
  exact Nat.mod_lt _ (by omega)

theorem legacyEq_weekdayOfFirst (s : Cal.MonthOfYear) :
    Legacy.YearMonth.weekdayOfFirst s.toLegacy = s.weekdayOfFirst.toNat := by
  have h : s.weekdayOfFirst
      = Cal.Weekday.ofNatUnwrap (Legacy.YearMonth.weekdayOfFirst s.toLegacy)
    := rfl
  rw [h, Cal.Weekday.toNat_ofNatUnwrap _ (s.toLegacy).weekdayOfFirst_lt]

theorem legacyEq_numOfDays (s : Cal.MonthOfYear) :
    Legacy.YearMonth.numOfDays s.toLegacy = s.numOfDays := by
  obtain ⟨⟨y⟩, mo⟩ := s
  cases mo <;> rfl

theorem legacyEq_header (s : Cal.MonthOfYear) :
    Legacy.YearMonth.monthHeader s.toLegacy = s.header := by
  obtain ⟨⟨y⟩, mo⟩ := s
  cases mo <;> rfl

theorem legacyEq_weekHeader (s : Cal.MonthOfYear) (f : Cal.Weekday) :
    Legacy.YearMonth.weekHeader s.toLegacy f.toNat = f.weekLine := by
  cases f <;> rfl

theorem legacyEq_dayMatrix (s : Cal.MonthOfYear) (f : Cal.Weekday) :
    Legacy.YearMonth.dayMatrix s.toLegacy f.toNat = s.dayMatrix f := by
  unfold Legacy.YearMonth.dayMatrix Cal.MonthOfYear.dayMatrix
  simp only [legacyEq_weekdayOfFirst, legacyEq_numOfDays,
    Cal.Weekday.sub_eq_emod]

theorem legacyEq_calendar (s : Cal.MonthOfYear) (f : Cal.Weekday) :
    Legacy.YearMonth.calendar s.toLegacy f.toNat = s.calendar f := by
  unfold Legacy.YearMonth.calendar Cal.MonthOfYear.calendar
  rw [legacyEq_header, legacyEq_weekHeader, legacyEq_dayMatrix]

theorem legacyEq_nextMonth (s : Cal.MonthOfYear) :
    Legacy.YearMonth.nextMonth s.toLegacy = (s.succ).toLegacy := by
  obtain ⟨⟨y⟩, mo⟩ := s
  cases mo <;> rfl

theorem legacyEq_prevMonth (s : Cal.MonthOfYear) :
    Legacy.YearMonth.prevMonth s.toLegacy = (s.pred).toLegacy := by
  obtain ⟨⟨y⟩, mo⟩ := s
  cases mo <;> rfl

theorem legacyEq_listFrom : ∀ (n : Nat) (s : Cal.MonthOfYear),
    Legacy.YearMonth.listFrom s.toLegacy n
      = (Cal.MonthOfYear.listFrom s n).map Cal.MonthOfYear.toLegacy
  | 0, _ => rfl
  | n + 1, s => by
    show s.toLegacy :: Legacy.YearMonth.listFrom (s.toLegacy).nextMonth n = _
    rw [legacyEq_nextMonth, legacyEq_listFrom n s.succ]
    rfl

theorem legacyEq_prevIter : ∀ (k : Nat) (s : Cal.MonthOfYear),
    Legacy.YearMonth.prevIter s.toLegacy k = (s.predIter k).toLegacy
  | 0, _ => rfl
  | k + 1, s => by
    show Legacy.YearMonth.prevIter (s.toLegacy).prevMonth k = _
    rw [legacyEq_prevMonth]
    exact legacyEq_prevIter k s.pred

theorem legacyEq_months (s : Cal.MonthOfYear) (len : Nat) (span : Bool)
    (fN c : Nat) :
    Legacy.Calendar.months ⟨s.toLegacy, len, span, fN, c⟩
      = (Cal.CalRange.iterList ⟨s, len, span⟩).map Cal.MonthOfYear.toLegacy
    := by
  cases span
  · exact legacyEq_listFrom len s
  · show Legacy.YearMonth.listFrom
        (Legacy.YearMonth.prevIter s.toLegacy (len / 2)) len = _
    rw [legacyEq_prevIter, legacyEq_listFrom]
    rfl

/-- Claim C10: the legacy single-file engine and the modular engine are
equivalent: for every year, month, first weekday, month count, span flag
and column count, `Calendar::format` and `CalFormat::format` produce the
same output string. -/
theorem claim_C10_engine_equivalence (y : Nat) (mo : Cal.Month)
    (f : Cal.Weekday) (len : Nat) (span : Bool) (c : Nat)
    (hy : 1 ≤ y) (hlen : 1 ≤ len) (hc : 1 ≤ c) :
    Legacy.Calendar.format ⟨⟨y, mo.toNat⟩, len, span, f.toNat, c⟩
      = Cal.CalFormat.format ⟨⟨⟨⟨y⟩, mo⟩, len, span⟩, f, c⟩ := by
  have hcals : (Legacy.Calendar.months
        ⟨⟨y, mo.toNat⟩, len, span, f.toNat, c⟩).map
          (fun ym => Legacy.YearMonth.calendar ym f.toNat)
      = (Cal.CalRange.iterList ⟨⟨⟨y⟩, mo⟩, len, span⟩).map
          (fun ym => Cal.MonthOfYear.calendar ym f) := by
    rw [show (⟨y, mo.toNat⟩ : Legacy.YearMonth)
        = (Cal.MonthOfYear.mk ⟨y⟩ mo).toLegacy from rfl,
      legacyEq_months, List.map_map]
    exact List.map_congr_left (fun s _ => legacyEq_calendar s f)
  exact congrArg (fun L => String.intercalate "\n"
    ((Cal.chunks c L).map (fun cs => String.intercalate "\n"
      ((List.range (cs.headD []).length).map (fun i =>
        String.intercalate " " (cs.map (fun b => b.getD i ""))))))) hcals

theorem claim_C10_witness :
    (1 ≤ 2022 ∧ 1 ≤ 2 ∧ 1 ≤ 3) ∧
    Legacy.Calendar.format
        ⟨⟨2022, Cal.Month.toNat .november⟩, 2, false,
          Cal.Weekday.toNat .sunday, 3⟩
      = Cal.CalFormat.format ⟨⟨⟨⟨2022⟩, .november⟩, 2, false⟩, .sunday, 3⟩ :=
  ⟨⟨by decide, by decide, by decide⟩,
   claim_C10_engine_equivalence 2022 .november .sunday 2 false 3
     (by decide) (by decide) (by decide)⟩

theorem u32_weekday_chain (y k : Nat) (hy : y ≤ 3435973835) (hk : k ≤ 31) :
    u32add (u32add (u32sub (u32add (u32add 1 y) (y / 4)) (y / 100)) (y / 400)) k
      = 1 + y + y / 4 - y / 100 + y / 400 + k := by
  unfold u32add u32sub U32MOD
  omega

/-- Claim C1 (amended): the weekday congruence holds wherever the `u32`
arithmetic cannot wrap, i.e. for every year up to 3435973835 (where
`1 + y + y/4` stays below `2^32`) and every month; the two spec examples
hold. Beyond that bound the claim fails, as shown separately. -/
theorem claim_C1_weekday_formula (year : Nat) (mo : Cal.Month)
    (h1 : 1 ≤ year) (h2 : year ≤ 3435973835) :
    ((Cal.MonthOfYear.mk ⟨year⟩ mo).weekdayOfFirst).toNat =
      (1 + (year - (14 - mo.toNat) / 12)
        + (year - (14 - mo.toNat) / 12) / 4
        - (year - (14 - mo.toNat) / 12) / 100
        + (year - (14 - mo.toNat) / 12) / 400
        + 31 * (mo.toNat + 12 * ((14 - mo.toNat) / 12) - 2) / 12) % 7 ∧
    (Cal.MonthOfYear.mk ⟨2022⟩ .november).weekdayOfFirst = .tuesday ∧
    (Cal.MonthOfYear.mk ⟨2023⟩ .january).weekdayOfFirst = .sunday := by
  refine ⟨?_, by decide, by decide⟩
  have hb := mo.toNat_bounds
  have ha : (14 - mo.toNat) / 12 ≤ 1 := by omega
  have hE : (Cal.MonthOfYear.mk ⟨year⟩ mo).weekdayOfFirst
      = Cal.Weekday.ofNatUnwrap
        ((u32add
            (u32add
              (u32sub
                (u32add (u32add 1 (u32sub year ((14 - mo.toNat) / 12)))
                  (u32sub year ((14 - mo.toNat) / 12) / 4))
                (u32sub year ((14 - mo.toNat) / 12) / 100))
              (u32sub year ((14 - mo.toNat) / 12) / 400))
            (31 * (mo.toNat + 12 * ((14 - mo.toNat) / 12) - 2) / 12)) % 7) := rfl
  have hya : u32sub year ((14 - mo.toNat) / 12) = year - (14 - mo.toNat) / 12 := by
    unfold u32sub U32MOD
    omega
  have hk : 31 * (mo.toNat + 12 * ((14 - mo.toNat) / 12) - 2) / 12 ≤ 31 := by
    omega
  rw [hE, Cal.Weekday.toNat_ofNatUnwrap _ (Nat.mod_lt _ (by omega)), hya,
    u32_weekday_chain _ _ (by omega) hk]

theorem claim_C1_witness :
    (1 ≤ 2022 ∧ 2022 ≤ 3435973835) ∧
    (((Cal.MonthOfYear.mk ⟨2022⟩ .november).weekdayOfFirst).toNat =
      (1 + (2022 - (14 - Cal.Month.toNat .november) / 12)
        + (2022 - (14 - Cal.Month.toNat .november) / 12) / 4
        - (2022 - (14 - Cal.Month.toNat .november) / 12) / 100
        + (2022 - (14 - Cal.Month.toNat .november) / 12) / 400
        + 31 * (Cal.Month.toNat .november
            + 12 * ((14 - Cal.Month.toNat .november) / 12) - 2) / 12) % 7 ∧
     (Cal.MonthOfYear.mk ⟨2022⟩ .november).weekdayOfFirst = .tuesday ∧
     (Cal.MonthOfYear.mk ⟨2023⟩ .january).weekdayOfFirst = .sunday) :=
  ⟨⟨by decide, by decide⟩,
   claim_C1_weekday_formula 2022 .november (by decide) (by decide)⟩

/-- At year 4294967295 (a valid `u32` year), month 3, the code computes
weekday 5 (Friday) because `1 + y` wraps, while the claim's congruence
gives 2 (Tuesday): the claim fails as stated for every year ≥ 1. -/
theorem claim_C1_counterexample :
    ((Cal.MonthOfYear.mk ⟨4294967295⟩ .march).weekdayOfFirst).toNat ≠
      (1 + (4294967295 - (14 - Cal.Month.toNat .march) / 12)
        + (4294967295 - (14 - Cal.Month.toNat .march) / 12) / 4
        - (4294967295 - (14 - Cal.Month.toNat .march) / 12) / 100
        + (4294967295 - (14 - Cal.Month.toNat .march) / 12) / 400
        + 31 * (Cal.Month.toNat .march
            + 12 * ((14 - Cal.Month.toNat .march) / 12) - 2) / 12) % 7 := by
  decide

/-- Claim C8: for every `u8` value `v`, `Month::try_from` succeeds exactly
when `1 ≤ v ≤ 12` and otherwise returns `InvalidMonth v`;
`Weekday::try_from` succeeds exactly when `v ≤ 6` and otherwise returns
`InvalidWeekday v`; `MonthOfYear::new` fails exactly when the month
conversion fails and surfaces the same error. -/
theorem claim_C8_tryfrom_validation (v : Nat) (hv : v < 256) :
    ((∃ m, Cal.Month.tryFrom v = .ok m) ↔ (1 ≤ v ∧ v ≤ 12)) ∧
    (¬(1 ≤ v ∧ v ≤ 12) →
      Cal.Month.tryFrom v = .error (.invalidMonth v)) ∧
    ((∃ w, Cal.Weekday.tryFrom v = .ok w) ↔ v ≤ 6) ∧
    (¬v ≤ 6 → Cal.Weekday.tryFrom v = .error (.invalidWeekday v)) ∧
    (∀ y e, Cal.Month.tryFrom v = .error e →
      Cal.MonthOfYear.new y v = .error e) ∧
    (∀ y m, Cal.Month.tryFrom v = .ok m →
      Cal.MonthOfYear.new y v = .ok ⟨⟨y⟩, m⟩) := by
  have hm13 : ∀ n : Nat,
      Cal.Month.tryFrom (n + 13) = .error (.invalidMonth (n + 13)) :=
    fun _ => rfl
  have hw7 : ∀ n : Nat,
      Cal.Weekday.tryFrom (n + 7) = .error (.invalidWeekday (n + 7)) :=
    fun _ => rfl
  have hmerr : ¬(1 ≤ v ∧ v ≤ 12) →
      Cal.Month.tryFrom v = .error (.invalidMonth v) := by
    intro h
    match v, h with
    | 0, _ => rfl
    | n + 1, h =>
      obtain ⟨k, hk⟩ : ∃ k, n + 1 = k + 13 := ⟨n - 12, by omega⟩
      rw [hk]; exact hm13 k
  have hwerr : ¬v ≤ 6 →
      Cal.Weekday.tryFrom v = .error (.invalidWeekday v) := by
    intro h
    obtain ⟨k, hk⟩ : ∃ k, v = k + 7 := ⟨v - 7, by omega⟩
    rw [hk]; exact hw7 k
  refine ⟨⟨?_, ?_⟩, hmerr, ⟨?_, ?_⟩, hwerr, ?_, ?_⟩
  · rintro ⟨m, hm⟩
    by_contra hb
    rw [hmerr hb] at hm
    exact absurd hm (by simp)
  · rintro ⟨h1, h2⟩
    interval_cases v <;> exact ⟨_, rfl⟩
  · rintro ⟨w, hw⟩
    by_contra hb
    rw [hwerr hb] at hw
    exact absurd hw (by simp)
  · intro h
    interval_cases v <;> exact ⟨_, rfl⟩
  · intro y e h
    simp [Cal.MonthOfYear.new, h, Except.map]
  · intro y m h
    simp [Cal.MonthOfYear.new, h, Except.map]

theorem claim_C8_witness :
    (13 < 256 ∧ 5 < 256) ∧
    (¬(1 ≤ 13 ∧ 13 ≤ 12) →
      Cal.Month.tryFrom 13 = .error (.invalidMonth 13)) ∧
    (¬(13 : Nat) ≤ 6 →
      Cal.Weekday.tryFrom 13 = .error (.invalidWeekday 13)) ∧
    ((∃ m, Cal.Month.tryFrom 5 = .ok m) ↔ (1 ≤ 5 ∧ 5 ≤ 12)) ∧
    (∀ y e, Cal.Month.tryFrom 13 = .error e →
      Cal.MonthOfYear.new y 13 = .error e) :=
  ⟨⟨by decide, by decide⟩,
   (claim_C8_tryfrom_validation 13 (by decide)).2.1,
   (claim_C8_tryfrom_validation 13 (by decide)).2.2.2.1,
   (claim_C8_tryfrom_validation 5 (by decide)).1,
   (claim_C8_tryfrom_validation 13 (by decide)).2.2.2.2.1⟩
